import Mathlib

/-!
Verification of slack_times_collector: channel directory, channel references, aggregation,
view patching

A shallow embedding of the Go package `times` (files `common.go`, `collect.go`,
`app_open.go`, `toggle_watch_state.go`).

Modelling conventions.

* Go strings are modelled by Lean `String`s (sequences of Unicode code points).  The only
  string operations the program performs are concatenation, equality, a prefix test against
  the ASCII literal `times-` and a split at the ASCII separator `|`; on UTF-8 text these
  agree byte-wise and code-point-wise.
* Go slices are modelled by `List`s; a `for range` loop that appends to a result slice is a
  left fold that appends at the end.
* The Slack Web API is an external collaborator.  It is modelled by a record of transition
  functions over an abstract platform state `σ`; every function of the program that talks to
  Slack threads that state explicitly and returns, next to its result, the list of API calls
  it issued.
* Loops whose termination depends on the platform (cursor pagination) take a fuel argument.
* Logging (`log.Printf`) is not modelled.
-/

namespace Times

/-! ## The fragment of the Go standard library the program uses -/

namespace strings

/-- Go `strings.HasPrefix`. -/
def HasPrefix (s pre : String) : Bool :=
  pre.data.isPrefixOf s.data

/-- Go `strings.Index` on code-point lists: the position of the first occurrence of `sep`
in `s`, or `none` (Go returns `-1`). -/
def Index (sep : List Char) : List Char → Option Nat
  | [] => if sep.isEmpty then some 0 else none
  | c :: cs =>
    if sep.isPrefixOf (c :: cs) then some 0
    else (Index sep cs).map (fun m => m + 1)

/-- Go `strings.explode`: split into single code points, at most `n` pieces, the last piece
being the unsplit remainder. -/
def explode : Nat → List Char → List (List Char)
  | 0, _ => []
  | _ + 1, [] => []
  | 1, c :: cs => [c :: cs]
  | n + 2, c :: cs => [c] :: explode (n + 1) cs

/-- The loop of Go `strings.genSplit` (with `sepSave = 0`): cut at most `k` times at the
first occurrence of `sep`; the rest of the string is the last piece. -/
def genSplitLoop (sep : List Char) : Nat → List Char → List (List Char)
  | 0, s => [s]
  | k + 1, s =>
    match Index sep s with
    | none => [s]
    | some m => s.take m :: genSplitLoop sep k (s.drop (m + sep.length))

/-- Go `strings.SplitN(s, sep, n)` for `n ≥ 0` (the program only calls it with `n = 2`):
`n = 0` gives no pieces, an empty separator explodes the string, otherwise at most `n`
pieces are cut at `sep`. -/
def SplitN (s sep : String) (n : Nat) : List String :=
  if n = 0 then []
  else if sep.data.isEmpty then (explode n s.data).map String.mk
  else (genSplitLoop sep.data (n - 1) s.data).map String.mk

end strings

/-! Go `sort.Slice` up to Go 1.18 runs `quickSort_func` on the slice through the
`lessSwap` pair of the caller's `less` and a reflective swapper.  What follows is the part of
`quickSort_func` that handles a range of at most twelve elements (a gap-6 pass followed by
an insertion sort); on longer ranges Go first partitions, which is not modelled. -/

namespace sort

/-- Go `data.Swap(i, j)` on the slice `l`. -/
def swapAt {α : Type} (l : List α) (i j : Nat) : List α :=
  match l[i]?, l[j]? with
  | some x, some y => (l.set i y).set j x
  | _, _ => l

/-- Go `data.Less(i, j)` on the slice `l`: the caller's `less` at the two elements. -/
def lessAt {α : Type} (less : α → α → Bool) (l : List α) (i j : Nat) : Bool :=
  match l[i]?, l[j]? with
  | some x, some y => less x y
  | _, _ => false

/-- The inner loop of Go `insertionSort_func`:
`for j := i; j > a && data.Less(j, j-1); j-- { data.Swap(j, j-1) }`. -/
def insertionInner {α : Type} (less : α → α → Bool) (a : Nat) : Nat → List α → List α
  | 0, l => l
  | j + 1, l =>
    if j + 1 > a ∧ lessAt less l (j + 1) j = true then
      insertionInner less a j (swapAt l (j + 1) j)
    else l

/-- Go `insertionSort_func(data, a, b)`: `for i := a + 1; i < b; i++` run the inner loop. -/
def insertionSort_func {α : Type} (less : α → α → Bool) (l : List α) (a b : Nat) : List α :=
  (List.range' (a + 1) (b - (a + 1))).foldl (fun l i => insertionInner less a i l) l

/-- The final part of Go `quickSort_func(data, a, b, maxDepth)`, reached directly when
`b - a ≤ 12`: if `b - a > 1`, a ShellSort pass with gap 6
(`for i := a + 6; i < b; i++ { if data.Less(i, i-6) { data.Swap(i, i-6) } }`) and then
`insertionSort_func(data, a, b)`. -/
def quickSort_func_small {α : Type} (less : α → α → Bool) (l : List α) (a b : Nat) :
    List α :=
  if b - a > 1 then
    let l1 := (List.range' (a + 6) (b - (a + 6))).foldl
      (fun l i => if lessAt less l i (i - 6) = true then swapAt l i (i - 6) else l) l
    insertionSort_func less l1 a b
  else l

/-- Go `sort.Slice(x, less)` as far as modelled: `quickSort_func` on the whole slice without
the partitioning rounds.  For slices of at most twelve elements this is what `sort.Slice`
of Go 1.18 and earlier computes; for longer slices it still sorts. -/
def SliceSmall {α : Type} (less : α → α → Bool) (x : List α) : List α :=
  quickSort_func_small less x 0 x.length

end sort

/-- Go `error` values the program distinguishes: the package-level sentinel
`NotInChannelError` (compared by identity in `CollectSlackTimesNews`) and every other error,
carried with its message. -/
inductive GoError where
  | NotInChannelError
  | other (msg : String)
  deriving DecidableEq, Repr

deriving instance DecidableEq for Except

/-! ## `common.go` -/

/-- The fields of `slack.Channel` the program reads. -/
structure Channel where
  ID : String
  Name : String
  Creator : String
  deriving DecidableEq, Repr

/-- Go `type slackChannels []slack.Channel`. -/
abbrev slackChannels := List Channel

/-- `slackChannels.selectTimesChannelsOfUser` (common.go 32-40). -/
def selectTimesChannelsOfUser (cs : slackChannels) (userID timesNewsChanID : String) :
    slackChannels :=
  cs.foldl
    (fun res ch =>
      if ch.Creator = userID ∧ strings.HasPrefix ch.Name "times-" = true
          ∧ ch.ID ≠ timesNewsChanID then
        res ++ [ch]
      else res)
    []

/-- `slackChannels.selectTimesChannels` (common.go 42-50). -/
def selectTimesChannels (cs : slackChannels) (timesNewsChanID : String) : slackChannels :=
  cs.foldl
    (fun res ch =>
      if strings.HasPrefix ch.Name "times-" = true ∧ ch.ID ≠ timesNewsChanID then
        res ++ [ch]
      else res)
    []

/-- Go `type channelProps struct { ID, Name string }`. -/
structure channelProps where
  ID : String
  Name : String
  deriving DecidableEq, Repr

/-- `newChannelProps` (common.go 57-62). -/
def newChannelProps (chanID chanName : String) : channelProps :=
  { ID := chanID, Name := chanName }

/-- `(*channelProps).String` (common.go 64-66). -/
def channelProps.String (cp : channelProps) : String :=
  cp.ID ++ "|" ++ cp.Name

/-- `parseChannelProps` (common.go 68-77): split once at `|`; anything but two pieces is an
error. -/
def parseChannelProps (s : String) : Except GoError channelProps :=
  match strings.SplitN s "|" 2 with
  | [id, name] => .ok { ID := id, Name := name }
  | _ => .error (.other ("can't be parsed as channelProps: " ++ s))

/-! ## The Slack client (`github.com/slack-go/slack`) as seen by the program -/

/-- The fields of `slack.Message` the program reads. -/
structure Message where
  Type_ : String
  SubType : String
  deriving DecidableEq, Repr

/-- Go `slack.GetConversationsParameters`; the program sets `Cursor` only. -/
structure GetConversationsParameters where
  Cursor : String
  deriving DecidableEq, Repr

/-- Go `slack.GetConversationHistoryParameters`; the program sets `ChannelID`, `Cursor`,
`Inclusive` and `Oldest`, the other fields keep their zero values. -/
structure GetConversationHistoryParameters where
  ChannelID : String
  Cursor : String
  Inclusive : Bool
  Latest : String
  Limit : Nat
  Oldest : String
  deriving DecidableEq, Repr

/-- Go `slack.ResponseMetadata`, the type of the field `ResponseMetadata` of the embedded
`slack.SlackResponse`: the field the program reads. -/
structure ResponseMetadata where
  Cursor : String
  deriving DecidableEq, Repr

/-- The anonymous struct type of the field `ResponseMetaData` that
`slack.GetConversationHistoryResponse` declares itself, next to the embedded
`SlackResponse`. -/
structure ResponseMetaData where
  NextCursor : String
  deriving DecidableEq, Repr

/-- Go `slack.GetConversationHistoryResponse`: the embedded `SlackResponse.Error` and
`SlackResponse.ResponseMetadata` (promoted; this is what `resp.ResponseMetadata` in the
program denotes), the struct's own `ResponseMetaData`, and `Messages`. -/
structure GetConversationHistoryResponse where
  Error : String
  ResponseMetadata : ResponseMetadata
  ResponseMetaData : ResponseMetaData
  Messages : List Message
  deriving DecidableEq, Repr

/-- The body of a successful answer of the platform method `conversations.history`: the
messages of the page and `response_metadata.next_cursor`, empty on the last page. -/
structure HistoryPage where
  messages : List Message
  next_cursor : String
  deriving DecidableEq, Repr

/-- How the slack-go client turns a successful history page into the value
`GetConversationHistory` returns.  Both `SlackResponse.ResponseMetadata` and the struct's
own `ResponseMetaData` carry the JSON key `response_metadata`; Go's `encoding/json` gives
the key to the less deeply nested field, so `next_cursor` lands in
`ResponseMetaData.NextCursor` and the promoted `ResponseMetadata.Cursor` keeps its zero
value. -/
def decodeHistoryResponse (page : HistoryPage) : GetConversationHistoryResponse :=
  { Error := "",
    ResponseMetadata := { Cursor := "" },
    ResponseMetaData := { NextCursor := page.next_cursor },
    Messages := page.messages }

/-- Go `slack.GetUsersInConversationParameters`; the program sets `ChannelID` only. -/
structure GetUsersInConversationParameters where
  ChannelID : String
  Cursor : String
  Limit : Nat
  deriving DecidableEq, Repr

/-- Go `slack.TextBlockObject`. -/
structure TextBlockObject where
  Type_ : String
  Text : String
  Emoji : Bool
  Verbatim : Bool
  deriving DecidableEq, Repr

/-- Go `slack.ButtonBlockElement`: the fields the program sets (`Type` is always
`button`). -/
structure ButtonBlockElement where
  ActionID : String
  Text : TextBlockObject
  Value : String
  Style : String
  deriving DecidableEq, Repr

/-- What a display block carries besides its `BlockID`: the three kinds of block the
program builds (section, header, divider) and, opaquely, every other kind the platform may
send back inside a view. -/
inductive BlockBody where
  | SectionBlock (text : Option TextBlockObject) (accessory : Option ButtonBlockElement)
  | HeaderBlock (text : TextBlockObject)
  | DividerBlock
  | UnknownBlock (blockType : String) (payload : String)
  deriving DecidableEq, Repr

/-- Go `slack.Block` value (a non-nil pointer to one of the library's block structs, each of
which has a `BlockID string` field; the empty string is the absent id). -/
structure Block where
  BlockID : String
  body : BlockBody
  deriving DecidableEq, Repr

/-- Go `slack.ModalViewRequest`: the fields the program sets. -/
structure ModalViewRequest where
  Type_ : String
  Title : TextBlockObject
  Blocks : List Block
  Close : TextBlockObject
  deriving DecidableEq, Repr

/-- Go `slack.HomeTabViewRequest`: the fields the program sets (`Blocks` is
`slack.Blocks.BlockSet`). -/
structure HomeTabViewRequest where
  Type_ : String
  Blocks : List Block
  deriving DecidableEq, Repr

/-- Go `slack.ViewResponse`; the program only logs it. -/
structure ViewResponse where
  Ok : Bool
  Error : String
  deriving DecidableEq, Repr

/-- The Slack Web API methods the program calls, as transitions of a platform state `σ`.
Results have the shape of the Go return values; a `none` error is Go `nil`, a `none`
response is a nil pointer. -/
structure SlackAPI (σ : Type) where
  GetConversations :
    GetConversationsParameters → σ → (List Channel × String × Option GoError) × σ
  GetConversationHistory :
    GetConversationHistoryParameters → σ →
      (Option GetConversationHistoryResponse × Option GoError) × σ
  GetUsersInConversation :
    GetUsersInConversationParameters → σ → (List String × String × Option GoError) × σ
  JoinConversation : String → σ → (List String × Option GoError) × σ
  LeaveConversation : String → σ → (Bool × Option GoError) × σ
  OpenView : String → ModalViewRequest → σ → (Option ViewResponse × Option GoError) × σ
  PublishView :
    String → HomeTabViewRequest → String → σ → (Option ViewResponse × Option GoError) × σ
  PostMessage : String → String → σ → Option GoError × σ

/-- One call of the program to the Slack Web API, with its arguments. -/
inductive APICall where
  | GetConversations (params : GetConversationsParameters)
  | GetConversationHistory (params : GetConversationHistoryParameters)
  | GetUsersInConversation (params : GetUsersInConversationParameters)
  | JoinConversation (channelID : String)
  | LeaveConversation (channelID : String)
  | OpenView (triggerID : String) (view : ModalViewRequest)
  | PublishView (userID : String) (view : HomeTabViewRequest) (hash : String)
  | PostMessage (channelID : String) (text : String)
  deriving DecidableEq, Repr

/-- How a call of a Go function of the program ends: with a value, with an error, with a
run-time panic (nil dereference), or, in the model only, with the loop fuel used up. -/
inductive Outcome (α : Type) where
  | ok (a : α)
  | err (e : GoError)
  | panicked
  | outOfFuel
  deriving DecidableEq, Repr

/-- `setupSlackAPI` (common.go 16-23): fails when `SLACK_BOT_TOKEN` is empty. -/
def setupSlackAPI (getenv : String → String) : Option GoError :=
  if getenv "SLACK_BOT_TOKEN" = "" then some (.other "token is not set") else none

/-- `actionStopWatching` (common.go 26). -/
def actionStopWatching : String := "stop_watching"

/-- `actionApproveWatching` (common.go 27). -/
def actionApproveWatching : String := "approve_watching"

/-- `buildStopWatchingButton` (common.go 80-86). -/
def buildStopWatchingButton (cp : channelProps) : Block :=
  let labeltxt : TextBlockObject :=
    { Type_ := "mrkdwn", Text := "#" ++ cp.Name ++ ": " ++ "*監視中* :eyes:",
      Emoji := false, Verbatim := false }
  let btnTxt : TextBlockObject :=
    { Type_ := "plain_text", Text := "監視を中止", Emoji := false, Verbatim := false }
  let button : ButtonBlockElement :=
    { ActionID := actionStopWatching, Text := btnTxt, Value := cp.String, Style := "danger" }
  { BlockID := "", body := .SectionBlock (some labeltxt) (some button) }

/-- `buildApproveWatchingButton` (common.go 89-95). -/
def buildApproveWatchingButton (cp : channelProps) : Block :=
  let labeltxt : TextBlockObject :=
    { Type_ := "mrkdwn", Text := "#" ++ cp.Name ++ ": " ++ "*未監視* :see_no_evil:",
      Emoji := false, Verbatim := false }
  let btnTxt : TextBlockObject :=
    { Type_ := "plain_text", Text := "監視を許可", Emoji := false, Verbatim := false }
  let button : ButtonBlockElement :=
    { ActionID := actionApproveWatching, Text := btnTxt, Value := cp.String,
      Style := "primary" }
  { BlockID := "", body := .SectionBlock (some labeltxt) (some button) }

/-- `getAllConversations` (common.go 98-113): follow the cursor until it comes back empty;
any page error discards what was gathered. -/
def getAllConversationsLoop {σ : Type} (api : SlackAPI σ) :
    Nat → String → slackChannels → σ → Outcome slackChannels × List APICall × σ
  | 0, _, _, st => (.outOfFuel, [], st)
  | fuel + 1, cursor, res, st =>
    let params : GetConversationsParameters := { Cursor := cursor }
    match api.GetConversations params st with
    | ((_, _, some e), st1) => (.err e, [.GetConversations params], st1)
    | ((chans, nextCursor, none), st1) =>
      let res1 := res ++ chans
      if nextCursor = "" then (.ok res1, [.GetConversations params], st1)
      else
        match getAllConversationsLoop api fuel nextCursor res1 st1 with
        | (out, calls, st2) => (out, .GetConversations params :: calls, st2)

/-- `getAllConversations` (common.go 98-113). -/
def getAllConversations {σ : Type} (api : SlackAPI σ) (fuel : Nat) (st : σ) :
    Outcome slackChannels × List APICall × σ :=
  getAllConversationsLoop api fuel "" [] st

/-! ## `collect.go` -/

/-- Go `type timesStat struct { chanID string; postCnt int }`.  `postCnt` only ever holds a
number of messages received from the platform, far below the range of a 64-bit `int`, so it
is a `Nat`. -/
structure timesStat where
  chanID : String
  postCnt : Nat
  deriving DecidableEq, Repr

/-- The inner loop of `getChannelPostCountAfter` (collect.go 108-113): add one for every
message of type `message` with an empty subtype. -/
def countPosts (msgs : List Message) (cnt : Nat) : Nat :=
  msgs.foldl
    (fun c msg => if msg.Type_ = "message" ∧ msg.SubType = "" then c + 1 else c)
    cnt

/-- The request `getChannelPostCountAfter` builds for a cursor (collect.go 95-100). -/
def historyParams (chanID oldest cursor : String) : GetConversationHistoryParameters :=
  { ChannelID := chanID, Cursor := cursor, Inclusive := true, Latest := "", Limit := 0,
    Oldest := oldest }

/-- The `for` loop of `getChannelPostCountAfter` (collect.go 94-119), started at `cursor`
with `cnt` posts counted so far. -/
def getChannelPostCountAfterLoop {σ : Type} (api : SlackAPI σ) (chanID oldest : String) :
    Nat → String → Nat → σ → Outcome Nat × List GetConversationHistoryParameters × σ
  | 0, _, _, st => (.outOfFuel, [], st)
  | fuel + 1, cursor, cnt, st =>
    let params := historyParams chanID oldest cursor
    match api.GetConversationHistory params st with
    | ((some resp, some e), st1) =>
      if resp.Error = "not_in_channel" then (.err .NotInChannelError, [params], st1)
      else (.err e, [params], st1)
    | ((none, some e), st1) => (.err e, [params], st1)
    | ((none, none), st1) => (.panicked, [params], st1)
    | ((some resp, none), st1) =>
      let cnt1 := countPosts resp.Messages cnt
      if resp.ResponseMetadata.Cursor = "" then (.ok cnt1, [params], st1)
      else
        match getChannelPostCountAfterLoop api chanID oldest fuel
            resp.ResponseMetadata.Cursor cnt1 st1 with
        | (out, calls, st2) => (out, params :: calls, st2)

/-- `getChannelPostCountAfter` (collect.go 89-120); `t` is the Unix time `t.Unix()` of the
Go argument.  Returns the outcome, the history requests issued (in order) and the platform
state after the last of them. -/
def getChannelPostCountAfter {σ : Type} (api : SlackAPI σ) (fuel : Nat) (chanID : String)
    (t : Int) (st : σ) : Outcome Nat × List GetConversationHistoryParameters × σ :=
  getChannelPostCountAfterLoop api chanID (toString t) fuel "" 0 st

/-- The aggregation loop of `CollectSlackTimesNews` (collect.go 47-65) over the selected
channels `chans`, with `timesStats` gathered so far.  `.err e` is the run aborted because a
count failed with an error `e` other than `NotInChannelError`. -/
def collectTimesStats {σ : Type} (api : SlackAPI σ) (fuel : Nat) (hourAgo : Int) :
    slackChannels → List timesStat → σ → Outcome (List timesStat) × List APICall × σ
  | [], timesStats, st => (.ok timesStats, [], st)
  | ch :: rest, timesStats, st =>
    match getChannelPostCountAfter api fuel ch.ID hourAgo st with
    | (.err e, calls, st1) =>
      if e = .NotInChannelError then
        match collectTimesStats api fuel hourAgo rest timesStats st1 with
        | (out, calls2, st2) => (out, calls.map .GetConversationHistory ++ calls2, st2)
      else (.err e, calls.map .GetConversationHistory, st1)
    | (.panicked, calls, st1) => (.panicked, calls.map .GetConversationHistory, st1)
    | (.outOfFuel, calls, st1) => (.outOfFuel, calls.map .GetConversationHistory, st1)
    | (.ok postCnt, calls, st1) =>
      let timesStats1 :=
        if postCnt ≠ 0 then timesStats ++ [{ chanID := ch.ID, postCnt := postCnt }]
        else timesStats
      match collectTimesStats api fuel hourAgo rest timesStats1 st1 with
      | (out, calls2, st2) => (out, calls.map .GetConversationHistory ++ calls2, st2)

/-- Go `sort.Slice` is library code; the program is parametric in it.  It receives the
comparison and the slice and returns the slice as it stands after sorting. -/
abbrev SortSlice := (timesStat → timesStat → Bool) → List timesStat → List timesStat

/-- The `less` closure handed to `sort.Slice` (collect.go 72-74). -/
def lessPostCnt (a b : timesStat) : Bool :=
  decide (a.postCnt < b.postCnt)

/-- The reordering of `timesStats` in `CollectSlackTimesNews` (collect.go 72-74): the
result is what `buildTimesNewsMessage` receives. -/
def sortTimesStats (sortSlice : SortSlice) (timesStats : List timesStat) : List timesStat :=
  sortSlice lessPostCnt timesStats

/-- `buildTimesNewsMessage` (collect.go 122-129). -/
def buildTimesNewsMessage (timesStats : List timesStat) : String :=
  timesStats.foldl
    (fun msgText ts => msgText ++ "• <#" ++ ts.chanID ++ ">: *" ++ toString ts.postCnt ++ "件*\n")
    "過去1時間のTimes投稿数:\n"

/-- `CollectSlackTimesNews` (collect.go 25-82); `now` is the Unix time of `time.Now()`.  The
Go function returns `nil` on every path that returns, so the outcome only tells whether the
run returned; what the run did is the list of API calls. -/
def CollectSlackTimesNews {σ : Type} (api : SlackAPI σ) (sortSlice : SortSlice)
    (getenv : String → String) (now : Int) (fuel : Nat) (st : σ) :
    Outcome Unit × List APICall × σ :=
  match setupSlackAPI getenv with
  | some _ => (.ok (), [], st)
  | none =>
    let timesNewsChanID := getenv "SLACK_TIMES_NEWS_CHANNEL_ID"
    if timesNewsChanID = "" then (.ok (), [], st)
    else
      let hourAgo := now - 3600
      match getAllConversations api fuel st with
      | (.err _, calls, st1) => (.ok (), calls, st1)
      | (.panicked, calls, st1) => (.panicked, calls, st1)
      | (.outOfFuel, calls, st1) => (.outOfFuel, calls, st1)
      | (.ok chans, calls, st1) =>
        match collectTimesStats api fuel hourAgo (selectTimesChannels chans timesNewsChanID)
            [] st1 with
        | (.err _, calls2, st2) => (.ok (), calls ++ calls2, st2)
        | (.panicked, calls2, st2) => (.panicked, calls ++ calls2, st2)
        | (.outOfFuel, calls2, st2) => (.outOfFuel, calls ++ calls2, st2)
        | (.ok timesStats, calls2, st2) =>
          if timesStats.length = 0 then (.ok (), calls ++ calls2, st2)
          else
            let sorted := sortTimesStats sortSlice timesStats
            let msg := buildTimesNewsMessage sorted
            match api.PostMessage timesNewsChanID msg st2 with
            | (_, st3) => (.ok (), calls ++ calls2 ++ [.PostMessage timesNewsChanID msg], st3)

/-- Go `error.Error()`: the message of an error. -/
def GoError.Error : GoError → String
  | .NotInChannelError => "not in channel"
  | .other msg => msg

/-! ## `app_open.go` -/

/-- Go `type channelWatchState struct { channel slack.Channel; isWatching bool }`. -/
structure channelWatchState where
  channel : Channel
  isWatching : Bool
  deriving DecidableEq, Repr

/-- `checkIfWatchingChannel` (app_open.go 106-120): one `GetUsersInConversation` request for
the channel; the cursor the platform returns is dropped. -/
def checkIfWatchingChannel {σ : Type} (api : SlackAPI σ) (channel : Channel)
    (botUserID : String) (st : σ) : Except GoError Bool × List APICall × σ :=
  let params : GetUsersInConversationParameters :=
    { ChannelID := channel.ID, Cursor := "", Limit := 0 }
  match api.GetUsersInConversation params st with
  | ((_, _, some e), st1) => (.error e, [.GetUsersInConversation params], st1)
  | ((users, _, none), st1) =>
    (.ok (users.any (fun userID => decide (userID = botUserID))),
      [.GetUsersInConversation params], st1)

/-- `buildWatchStateToggleButtonsBlock` (app_open.go 158-169). -/
def buildWatchStateToggleButtonsBlock (chanWatchStates : List channelWatchState) :
    List Block :=
  chanWatchStates.foldl
    (fun blks ch =>
      let chanProps : channelProps := { ID := ch.channel.ID, Name := ch.channel.Name }
      if ch.isWatching then blks ++ [buildStopWatchingButton chanProps]
      else blks ++ [buildApproveWatchingButton chanProps])
    []

/-- `buildAppHomeView` (app_open.go 130-156). -/
def buildAppHomeView (chanWatchStates : List channelWatchState) : HomeTabViewRequest :=
  let headerTxt : TextBlockObject :=
    { Type_ := "plain_text", Text := "Times News :newspaper:", Emoji := true,
      Verbatim := false }
  let header : Block := { BlockID := "", body := .HeaderBlock headerTxt }
  let descTxt : TextBlockObject :=
    { Type_ := "mrkdwn",
      Text := "定期的にみんなのTimesの更新をチェックして、#times-news に更新情報を流す君です",
      Emoji := false, Verbatim := false }
  let descSec : Block := { BlockID := "", body := .SectionBlock (some descTxt) none }
  let divider : Block := { BlockID := "", body := .DividerBlock }
  let chansTxt : TextBlockObject :=
    if chanWatchStates.length = 0 then
      { Type_ := "mrkdwn",
        Text := "あなたのTimesチャンネルが見つかりませんでした:thinking_face: 名前が\"times-\"から始まるチャンネルを作ってみてください。",
        Emoji := false, Verbatim := false }
    else
      { Type_ := "mrkdwn",
        Text := "あなたのTimesチャンネルです。右のボタンを押すと監視状態を変更できます。",
        Emoji := false, Verbatim := false }
  let chansTxtSec : Block := { BlockID := "", body := .SectionBlock (some chansTxt) none }
  let watchStateToggles := buildWatchStateToggleButtonsBlock chanWatchStates
  { Type_ := "home", Blocks := [header, descSec, divider, chansTxtSec] ++ watchStateToggles }

/-- `publishAppHomeView` (app_open.go 122-128): the response pointer is dereferenced for
logging, so a nil response panics. -/
def publishAppHomeView {σ : Type} (api : SlackAPI σ) (userID : String)
    (channelWatchStates : List channelWatchState) (st : σ) :
    Outcome Unit × List APICall × σ :=
  let view := buildAppHomeView channelWatchStates
  match api.PublishView userID view "" st with
  | ((none, _), st1) => (.panicked, [.PublishView userID view ""], st1)
  | ((some _, some e), st1) => (.err e, [.PublishView userID view ""], st1)
  | ((some _, none), st1) => (.ok (), [.PublishView userID view ""], st1)

/-- The loop of `onAppHomeOpened` (app_open.go 91-98) over the selected channels. -/
def watchStatesLoop {σ : Type} (api : SlackAPI σ) (botUserID : String) :
    slackChannels → List channelWatchState → σ →
      Except GoError (List channelWatchState) × List APICall × σ
  | [], watchStates, st => (.ok watchStates, [], st)
  | c :: rest, watchStates, st =>
    match checkIfWatchingChannel api c botUserID st with
    | (.error e, calls, st1) =>
      (.error (.other ("failed to fetch channel watching state: " ++ e.Error)), calls, st1)
    | (.ok isWatching, calls, st1) =>
      match watchStatesLoop api botUserID rest
          (watchStates ++ [{ channel := c, isWatching := isWatching }]) st1 with
      | (out, calls2, st2) => (out, calls ++ calls2, st2)

/-- `onAppHomeOpened` (app_open.go 83-104); `evUser` is `ev.User`. -/
def onAppHomeOpened {σ : Type} (api : SlackAPI σ) (fuel : Nat) (evUser botUserID
    timesNewsChanID : String) (st : σ) : Outcome Unit × List APICall × σ :=
  match getAllConversations api fuel st with
  | (.err e, calls, st1) => (.err (.other ("failed to get channels: " ++ e.Error)), calls, st1)
  | (.panicked, calls, st1) => (.panicked, calls, st1)
  | (.outOfFuel, calls, st1) => (.outOfFuel, calls, st1)
  | (.ok slackChans, calls, st1) =>
    let timesChans := selectTimesChannelsOfUser slackChans evUser timesNewsChanID
    match watchStatesLoop api botUserID timesChans [] st1 with
    | (.error e, calls2, st2) => (.err e, calls ++ calls2, st2)
    | (.ok watchStates, calls2, st2) =>
      match publishAppHomeView api evUser watchStates st2 with
      | (.err e, calls3, st3) =>
        (.err (.other ("failed to publish app home view: " ++ e.Error)),
          calls ++ calls2 ++ calls3, st3)
      | (out, calls3, st3) => (out, calls ++ calls2 ++ calls3, st3)

/-! ## `toggle_watch_state.go` -/

/-- Go `slack.BlockAction`: the fields the program reads. -/
structure BlockAction where
  ActionID : String
  BlockID : String
  Value : String
  deriving DecidableEq, Repr

/-- Go `slack.ActionCallbacks`: the field the program reads. -/
structure ActionCallbacks where
  BlockActions : List BlockAction
  deriving DecidableEq, Repr

/-- Go `slack.User`: the field the program reads. -/
structure User where
  ID : String
  deriving DecidableEq, Repr

/-- Go `slack.View`: the fields the program reads (`Blocks` is `Blocks.BlockSet`). -/
structure View where
  Blocks : List Block
  Hash : String
  deriving DecidableEq, Repr

/-- Go `slack.InteractionCallback`: the fields the program reads. -/
structure InteractionCallback where
  TriggerID : String
  User : User
  View : View
  ActionCallback : ActionCallbacks
  deriving DecidableEq, Repr

/-- What a handler leaves on the `http.ResponseWriter`: the status code written, or a panic
before any was written. -/
inductive HandlerResult where
  | status (code : Nat)
  | panicked
  deriving DecidableEq, Repr

/-- `onApproveWatching` (toggle_watch_state.go 80-92): join the channel; on success the new
block is the stop-watching button. -/
def onApproveWatching {σ : Type} (api : SlackAPI σ) (chProps : channelProps) (st : σ) :
    Except GoError Block × List APICall × σ :=
  match api.JoinConversation chProps.ID st with
  | ((_, some e), st1) => (.error e, [.JoinConversation chProps.ID], st1)
  | ((_, none), st1) => (.ok (buildStopWatchingButton chProps), [.JoinConversation chProps.ID], st1)

/-- `onStopWatching` (toggle_watch_state.go 95-102): leave the channel; on success the new
block is the approve-watching button. -/
def onStopWatching {σ : Type} (api : SlackAPI σ) (chProps : channelProps) (st : σ) :
    Except GoError Block × List APICall × σ :=
  match api.LeaveConversation chProps.ID st with
  | ((_, some e), st1) => (.error e, [.LeaveConversation chProps.ID], st1)
  | ((_, none), st1) =>
    (.ok (buildApproveWatchingButton chProps), [.LeaveConversation chProps.ID], st1)

/-- `publishResponseModal` (toggle_watch_state.go 104-108). -/
def publishResponseModal {σ : Type} (api : SlackAPI σ) (triggerID : String)
    (modalView : ModalViewRequest) (st : σ) : Option GoError × List APICall × σ :=
  match api.OpenView triggerID modalView st with
  | ((_, err), st1) => (err, [.OpenView triggerID modalView], st1)

/-- `buildResponseModal` (toggle_watch_state.go 110-135).  For an action id that is neither
constant the Go body text is a nil pointer; the handler never reaches that case, the model
gives the section no text. -/
def buildResponseModal (actionID : String) (chProps : channelProps) : ModalViewRequest :=
  let titleTxt : TextBlockObject :=
    { Type_ := "plain_text", Text := "Succeeded!", Emoji := false, Verbatim := false }
  let closeTxt : TextBlockObject :=
    { Type_ := "plain_text", Text := "Close", Emoji := false, Verbatim := false }
  let bodyTxt : Option TextBlockObject :=
    if actionID = actionApproveWatching then
      some { Type_ := "mrkdwn", Text := "#" ++ chProps.Name ++ " の監視を開始しました :eyes:",
             Emoji := false, Verbatim := false }
    else if actionID = actionStopWatching then
      some { Type_ := "mrkdwn",
             Text := "#" ++ chProps.Name ++ " の監視を中止しました :see_no_evil:",
             Emoji := false, Verbatim := false }
    else none
  let bodyTxtSec : Block := { BlockID := "", body := .SectionBlock bodyTxt none }
  { Type_ := "modal", Title := titleTxt, Blocks := [bodyTxtSec], Close := closeTxt }

/-- `buildErrorModal` (toggle_watch_state.go 137-153). -/
def buildErrorModal (chProps : channelProps) : ModalViewRequest :=
  let titleTxt : TextBlockObject :=
    { Type_ := "plain_text", Text := "Error", Emoji := false, Verbatim := false }
  let closeTxt : TextBlockObject :=
    { Type_ := "plain_text", Text := "Close", Emoji := false, Verbatim := false }
  let bodyTxt : TextBlockObject :=
    { Type_ := "mrkdwn",
      Text := "#" ++ chProps.Name ++ " の監視状態の変更に失敗しました :dizzy_face:",
      Emoji := false, Verbatim := false }
  let bodyTxtSec : Block := { BlockID := "", body := .SectionBlock (some bodyTxt) none }
  { Type_ := "modal", Title := titleTxt, Blocks := [bodyTxtSec], Close := closeTxt }

/-- `publishUpdatedAppHomeView` (toggle_watch_state.go 155-159): the response pointer is
dereferenced for logging, so a nil response panics. -/
def publishUpdatedAppHomeView {σ : Type} (api : SlackAPI σ) (userID : String)
    (newView : HomeTabViewRequest) (hash : String) (st : σ) :
    Outcome Unit × List APICall × σ :=
  match api.PublishView userID newView hash st with
  | ((none, _), st1) => (.panicked, [.PublishView userID newView hash], st1)
  | ((some _, some e), st1) => (.err e, [.PublishView userID newView hash], st1)
  | ((some _, none), st1) => (.ok (), [.PublishView userID newView hash], st1)

/-- `buildUpdatedAppHomeView` (toggle_watch_state.go 161-179): the reflective read of the
field `BlockID` is the field access; `IsZero` on a string is the test for the empty
string. -/
def buildUpdatedAppHomeView (prevBlocks : List Block) (updBlockID : String) (newBtn : Block) :
    HomeTabViewRequest :=
  let newBlocks := prevBlocks.foldl
    (fun newBlocks blk =>
      if blk.BlockID ≠ "" ∧ blk.BlockID = updBlockID then newBlocks ++ [newBtn]
      else newBlocks ++ [blk])
    []
  { Type_ := "home", Blocks := newBlocks }

/-- `HandleToggleWatchStateRequest` (toggle_watch_state.go 13-77).  `payload` is the result
of `json.Unmarshal` on the form value `payload`. -/
def HandleToggleWatchStateRequest {σ : Type} (api : SlackAPI σ) (getenv : String → String)
    (payload : Except GoError InteractionCallback) (st : σ) :
    HandlerResult × List APICall × σ :=
  match setupSlackAPI getenv with
  | some _ => (.status 500, [], st)
  | none =>
    match payload with
    | .error _ => (.status 400, [], st)
    | .ok ev =>
      match ev.ActionCallback.BlockActions with
      | [] => (.status 200, [], st)
      | action :: _ =>
        match parseChannelProps action.Value with
        | .error _ => (.status 500, [], st)
        | .ok chProps =>
          let toggled : Except GoError Block × List APICall × σ :=
            if action.ActionID = actionApproveWatching then onApproveWatching api chProps st
            else if action.ActionID = actionStopWatching then onStopWatching api chProps st
            else (.error (.other ("invalid action id: " ++ action.ActionID ++ "\n")), [], st)
          match toggled with
          | (.error _, calls1, st1) =>
            let modalView := buildErrorModal chProps
            match publishResponseModal api ev.TriggerID modalView st1 with
            | (_, calls2, st2) => (.status 200, calls1 ++ calls2, st2)
          | (.ok newBtn, calls1, st1) =>
            let modalView := buildResponseModal action.ActionID chProps
            match publishResponseModal api ev.TriggerID modalView st1 with
            | (_, calls2, st2) =>
              let newView := buildUpdatedAppHomeView ev.View.Blocks action.BlockID newBtn
              match publishUpdatedAppHomeView api ev.User.ID newView ev.View.Hash st2 with
              | (.panicked, calls3, st3) => (.panicked, calls1 ++ calls2 ++ calls3, st3)
              | (_, calls3, st3) => (.status 200, calls1 ++ calls2 ++ calls3, st3)

/-! ## Vocabulary of the statements -/

/-- The platform serves the history of `chanID` as the successful pages `pages` (at least
one) to a reader that starts at `cursor` in state `st` and asks each next page with the
`next_cursor` of the page before: every page but the last carries a non-empty
`next_cursor`, the last an empty one.  The client hands each page over as
`decodeHistoryResponse` of it. -/
def servesHistoryPages {σ : Type} (api : SlackAPI σ) (chanID oldest : String) :
    List HistoryPage → String → σ → Prop
  | [], _, _ => False
  | [p], cursor, st =>
    (api.GetConversationHistory (historyParams chanID oldest cursor) st).1
        = (some (decodeHistoryResponse p), none)
      ∧ p.next_cursor = ""
  | p :: q :: rest, cursor, st =>
    (api.GetConversationHistory (historyParams chanID oldest cursor) st).1
        = (some (decodeHistoryResponse p), none)
      ∧ p.next_cursor ≠ ""
      ∧ servesHistoryPages api chanID oldest (q :: rest) p.next_cursor
          (api.GetConversationHistory (historyParams chanID oldest cursor) st).2

/-- An ordinary user post: type `message`, empty subtype. -/
def isOrdinaryPost (msg : Message) : Bool :=
  decide (msg.Type_ = "message") && decide (msg.SubType = "")

/-- The membership request for a channel at a cursor. -/
def membersParams (chanID cursor : String) : GetUsersInConversationParameters :=
  { ChannelID := chanID, Cursor := cursor, Limit := 0 }

/-- The platform serves the membership of `chanID` as the successful pages `pages` (member
ids and next cursor; at least one page) to a reader that starts at `cursor` in state `st`
and follows the cursors. -/
def servesMemberPages {σ : Type} (api : SlackAPI σ) (chanID : String) :
    List (List String × String) → String → σ → Prop
  | [], _, _ => False
  | [p], cursor, st =>
    (api.GetUsersInConversation (membersParams chanID cursor) st).1 = (p.1, p.2, none)
      ∧ p.2 = ""
  | p :: q :: rest, cursor, st =>
    (api.GetUsersInConversation (membersParams chanID cursor) st).1 = (p.1, p.2, none)
      ∧ p.2 ≠ ""
      ∧ servesMemberPages api chanID (q :: rest) p.2
          (api.GetUsersInConversation (membersParams chanID cursor) st).2

/-- The outcomes of the post counts of the channels `chans`, each count run in the platform
state the previous one left. -/
def countOutcomes {σ : Type} (api : SlackAPI σ) (fuel : Nat) (hourAgo : Int) :
    slackChannels → σ → List (Outcome Nat)
  | [], _ => []
  | ch :: rest, st =>
    (getChannelPostCountAfter api fuel ch.ID hourAgo st).1
      :: countOutcomes api fuel hourAgo rest (getChannelPostCountAfter api fuel ch.ID hourAgo st).2.2

/-- The entry a channel contributes for the outcome of its count: `(id, count)` for a
successful count above zero, nothing otherwise. -/
def statOf (ch : Channel) : Outcome Nat → Option timesStat
  | .ok n => if 0 < n then some { chanID := ch.ID, postCnt := n } else none
  | _ => none

/-- The count of a channel succeeded or failed with `NotInChannelError`. -/
def countedOrNotMember : Outcome Nat → Bool
  | .ok _ => true
  | .err e => decide (e = .NotInChannelError)
  | .panicked => false
  | .outOfFuel => false

/-- The requirement Go places on a `less` function: it is irreflexive and, as the
documentation of `sort.Interface` words it, transitive both where it holds and where it does
not hold. -/
def StrictWeakOrder {α : Type} (less : α → α → Bool) : Prop :=
  (∀ a, less a a = false) ∧
  (∀ a b c, less a b = true → less b c = true → less a c = true) ∧
  (∀ a b c, less a b = false → less b c = false → less a c = false)

/-- What the documentation of `sort.Slice` promises for a proper `less`: the slice holds
the same elements afterwards and no element is less than one before it.  The documentation
adds that the sort is not guaranteed to be stable. -/
def SortSliceContract (sortSlice : SortSlice) : Prop :=
  ∀ (less : timesStat → timesStat → Bool) (x : List timesStat), StrictWeakOrder less →
    (sortSlice less x).Perm x ∧ (sortSlice less x).Pairwise (fun a b => less b a = false)

/-- Entries with equal `postCnt` stand in `out` in the same relative order as in `inp`. -/
def keepsTieOrder (inp out : List timesStat) : Prop :=
  ∀ n : Nat, out.filter (fun ts => decide (ts.postCnt = n))
    = inp.filter (fun ts => decide (ts.postCnt = n))

/-- Seven collected entries with two ties: `B` and `G` at one post, `C` to `F` at three. -/
def demoTimesStats : List timesStat :=
  [{ chanID := "A", postCnt := 2 }, { chanID := "B", postCnt := 1 },
   { chanID := "C", postCnt := 3 }, { chanID := "D", postCnt := 3 },
   { chanID := "E", postCnt := 3 }, { chanID := "F", postCnt := 3 },
   { chanID := "G", postCnt := 1 }]

/-- The two history pages the demonstration platform holds for channel `C5`: a post and a
join notice with `next_cursor` `p2`, then two posts. -/
def demoHistoryPages : List HistoryPage :=
  [{ messages := [{ Type_ := "message", SubType := "" },
                  { Type_ := "message", SubType := "channel_join" }],
     next_cursor := "p2" },
   { messages := [{ Type_ := "message", SubType := "" },
                  { Type_ := "message", SubType := "" }],
     next_cursor := "" }]

/-- A small platform for concrete runs, seen through the slack-go client.  The state counts
the requests served.
History: `C1` has one page (three ordinary posts and one join notice), the watcher is not a
member of `C2`, `C3` has one page with four posts, `C5` has the two pages
`demoHistoryPages`, every other channel one page with a join notice only.
Membership of every channel: two pages, the watcher `UBOT` on the second.  Joining or
leaving `C2` fails. -/
def demoAPI : SlackAPI Nat where
  GetConversations := fun params n =>
    if params.Cursor = "" then
      (([{ ID := "C1", Name := "times-a", Creator := "U1" },
         { ID := "C2", Name := "times-b", Creator := "U2" }], "d2", none), n + 1)
    else
      (([{ ID := "C3", Name := "general", Creator := "U1" }], "", none), n + 1)
  GetConversationHistory := fun params n =>
    if params.ChannelID = "C1" then
      ((some (decodeHistoryResponse
          { messages := [{ Type_ := "message", SubType := "" },
                         { Type_ := "message", SubType := "channel_join" },
                         { Type_ := "message", SubType := "" },
                         { Type_ := "message", SubType := "" }],
            next_cursor := "" }), none), n + 1)
    else if params.ChannelID = "C2" then
      ((some { Error := "not_in_channel", ResponseMetadata := { Cursor := "" },
               ResponseMetaData := { NextCursor := "" }, Messages := [] },
        some (.other "not_in_channel")), n + 1)
    else if params.ChannelID = "C3" then
      ((some (decodeHistoryResponse
          { messages := [{ Type_ := "message", SubType := "" },
                         { Type_ := "message", SubType := "" },
                         { Type_ := "message", SubType := "" },
                         { Type_ := "message", SubType := "" }],
            next_cursor := "" }), none), n + 1)
    else if params.ChannelID = "C5" then
      if params.Cursor = "" then
        ((some (decodeHistoryResponse
            { messages := [{ Type_ := "message", SubType := "" },
                           { Type_ := "message", SubType := "channel_join" }],
              next_cursor := "p2" }), none), n + 1)
      else
        ((some (decodeHistoryResponse
            { messages := [{ Type_ := "message", SubType := "" },
                           { Type_ := "message", SubType := "" }],
              next_cursor := "" }), none), n + 1)
    else
      ((some (decodeHistoryResponse
          { messages := [{ Type_ := "message", SubType := "channel_join" }],
            next_cursor := "" }), none), n + 1)
  GetUsersInConversation := fun params n =>
    if params.Cursor = "" then ((["U1", "U2"], "m2", none), n + 1)
    else ((["UBOT"], "", none), n + 1)
  JoinConversation := fun channelID n =>
    if channelID = "C2" then (([], some (.other "channel_not_found")), n + 1)
    else (([], none), n + 1)
  LeaveConversation := fun channelID n =>
    if channelID = "C2" then ((false, some (.other "channel_not_found")), n + 1)
    else ((false, none), n + 1)
  OpenView := fun _ _ n => ((some { Ok := true, Error := "" }, none), n + 1)
  PublishView := fun _ _ _ n => ((some { Ok := true, Error := "" }, none), n + 1)
  PostMessage := fun _ _ n => (none, n + 1)

/-- An environment with the bot token and the digest channel configured. -/
def demoGetenv (name : String) : String :=
  if name = "SLACK_BOT_TOKEN" then "xoxb-token"
  else if name = "SLACK_TIMES_NEWS_CHANNEL_ID" then "C9"
  else ""

/-- The member pages `demoAPI` serves for every channel: the watcher `UBOT` is on the
second page only. -/
def demoMemberPages : List (List String × String) :=
  [(["U1", "U2"], "m2"), (["UBOT"], "")]

/-- A toggle interaction on the home view: the user pressed the button of block `b1` with
the given action id and opaque value. -/
def demoInteraction (actionID value : String) : InteractionCallback :=
  { TriggerID := "trigger-1",
    User := { ID := "U1" },
    View := { Blocks := [{ BlockID := "b0", body := .DividerBlock },
                         { BlockID := "b1", body := .DividerBlock }],
              Hash := "h1" },
    ActionCallback :=
      { BlockActions := [{ ActionID := actionID, BlockID := "b1", Value := value }] } }

/-! ## Auxiliary facts -/

theorem foldl_append_if_eq_filter {α : Type} (P : α → Prop) [DecidablePred P]
    (cs acc : List α) :
    cs.foldl (fun res ch => if P ch then res ++ [ch] else res) acc
      = acc ++ cs.filter (fun ch => decide (P ch)) := by
  induction cs generalizing acc with
  | nil => simp
  | cons c cs ih =>
    by_cases h : P c
    · simp [List.foldl_cons, h, ih, List.filter_cons]
    · simp [List.foldl_cons, h, ih, List.filter_cons]

theorem foldl_append_ite_eq_map {α : Type} (P : α → Prop) [DecidablePred P] (r : α)
    (cs acc : List α) :
    cs.foldl (fun res b => if P b then res ++ [r] else res ++ [b]) acc
      = acc ++ cs.map (fun b => if P b then r else b) := by
  induction cs generalizing acc with
  | nil => simp
  | cons c cs ih =>
    by_cases h : P c
    · simp [List.foldl_cons, h, ih]
    · simp [List.foldl_cons, h, ih]

theorem strings.HasPrefix_iff (s pre : String) :
    strings.HasPrefix s pre = true ↔ ∃ rest : String, s = pre ++ rest := by
  unfold strings.HasPrefix
  rw [List.isPrefixOf_iff_prefix]
  constructor
  · rintro ⟨t, ht⟩
    refine ⟨⟨t⟩, ?_⟩
    apply String.ext
    simp [ht]
  · rintro ⟨rest, rfl⟩
    exact ⟨rest.data, by simp⟩

theorem strings.Index_bar_of_not_mem (s : List Char) (h : '|' ∉ s) :
    strings.Index ['|'] s = none := by
  induction s with
  | nil => simp [strings.Index]
  | cons c cs ih =>
    have hc : c ≠ '|' := fun e => h (by simp [e])
    have hcs : '|' ∉ cs := fun e => h (by simp [e])
    simp [strings.Index, List.isPrefixOf, Ne.symm hc, ih hcs]

theorem strings.Index_bar_append (a b : List Char) (h : '|' ∉ a) :
    strings.Index ['|'] (a ++ '|' :: b) = some a.length := by
  induction a with
  | nil => simp [strings.Index, List.isPrefixOf]
  | cons c cs ih =>
    have hc : c ≠ '|' := fun e => h (by simp [e])
    have hcs : '|' ∉ cs := fun e => h (by simp [e])
    simp [strings.Index, List.isPrefixOf, Ne.symm hc, ih hcs]

theorem strings.SplitN_bar_of_not_mem (s : String) (h : '|' ∉ s.data) :
    strings.SplitN s "|" 2 = [s] := by
  have hsep : ("|" : String).data = ['|'] := rfl
  simp [strings.SplitN, hsep, strings.genSplitLoop, strings.Index_bar_of_not_mem _ h]

theorem strings.SplitN_bar_append (s : String) (a b : List Char) (hs : s.data = a ++ '|' :: b)
    (h : '|' ∉ a) : strings.SplitN s "|" 2 = [⟨a⟩, ⟨b⟩] := by
  have hsep : ("|" : String).data = ['|'] := rfl
  simp [strings.SplitN, hsep, strings.genSplitLoop, hs, strings.Index_bar_append _ _ h]

theorem parseChannelProps_of_not_mem (s : String) (h : '|' ∉ s.data) :
    parseChannelProps s = .error (.other ("can't be parsed as channelProps: " ++ s)) := by
  simp [parseChannelProps, strings.SplitN_bar_of_not_mem s h]

theorem parseChannelProps_of_append (s : String) (a b : List Char)
    (hs : s.data = a ++ '|' :: b) (h : '|' ∉ a) :
    parseChannelProps s = .ok { ID := ⟨a⟩, Name := ⟨b⟩ } := by
  simp [parseChannelProps, strings.SplitN_bar_append s a b hs h]

theorem exists_first_bar (l : List Char) (h : '|' ∈ l) :
    ∃ a b, l = a ++ '|' :: b ∧ '|' ∉ a ∧ a = l.takeWhile (fun c => c != '|')
      ∧ b = (l.dropWhile (fun c => c != '|')).drop 1 := by
  induction l with
  | nil => simp at h
  | cons c cs ih =>
    by_cases hc : c = '|'
    · subst hc
      exact ⟨[], cs, by simp, by simp, by simp [List.takeWhile], by simp [List.dropWhile]⟩
    · have hcs : '|' ∈ cs := by
        rcases List.mem_cons.mp h with e | e
        · exact absurd e.symm hc
        · exact e
      obtain ⟨a, b, hab, ha, hta, hdb⟩ := ih hcs
      refine ⟨c :: a, b, by simp [hab], ?_, ?_, ?_⟩
      · intro hm
        rcases List.mem_cons.mp hm with e | e
        · exact hc e.symm
        · exact ha e
      · have hb : (c != '|') = true := by simp [hc]
        simp [List.takeWhile, hb, hta]
      · have hb : (c != '|') = true := by simp [hc]
        simp [List.dropWhile, hb, hdb]

theorem selectTimesChannels_eq_filter (cs : slackChannels) (x : String) :
    selectTimesChannels cs x
      = cs.filter (fun ch => strings.HasPrefix ch.Name "times-" && decide (ch.ID ≠ x)) := by
  unfold selectTimesChannels
  rw [foldl_append_if_eq_filter
    (fun ch : Channel => strings.HasPrefix ch.Name "times-" = true ∧ ch.ID ≠ x)]
  simp

/-! ## Channel references (`channelProps`) -/

/-- C1 (as amended): when the id contains no `|`, decoding the encoded reference succeeds
and gives back exactly the id and the full name, whatever the name is (it may contain
`|`). -/
theorem C1_roundtrip_of_bar_free_id (id name : String) (h : '|' ∉ id.data) :
    parseChannelProps (channelProps.String { ID := id, Name := name })
      = .ok { ID := id, Name := name } := by
  have hs : (channelProps.String { ID := id, Name := name }).data
      = id.data ++ '|' :: name.data := by
    have hsep : ("|" : String).data = ['|'] := rfl
    simp [channelProps.String, String.data_append, hsep]
  rw [parseChannelProps_of_append _ id.data name.data hs h]

/-- C1, the amended round trip at a concrete reference whose name contains separators. -/
theorem C1_roundtrip_witness :
    '|' ∉ ("C024BE91L" : String).data ∧
    parseChannelProps (channelProps.String { ID := "C024BE91L", Name := "times-a|b|" })
      = .ok { ID := "C024BE91L", Name := "times-a|b|" } :=
  ⟨by decide, C1_roundtrip_of_bar_free_id "C024BE91L" "times-a|b|" (by decide)⟩

/-- C1 as stated fails: the reference with id `a|b` and name `c` is encoded as `a|b|c` and
decoded as id `a`, name `b|c`; so the round trip does not hold for every id. -/
theorem C1_roundtrip_counterexample :
    parseChannelProps (channelProps.String { ID := "a|b", Name := "c" })
        = .ok { ID := "a", Name := "b|c" } ∧
    ¬ (∀ id name : String,
        parseChannelProps (channelProps.String { ID := id, Name := name })
          = .ok { ID := id, Name := name }) := by
  refine ⟨by decide, fun hall => ?_⟩
  have h := hall "a|b" "c"
  revert h
  decide

/-- C2: `parseChannelProps s` fails exactly when `s` contains no `|`; when `s` contains one
it succeeds; and on success the id is the part of `s` before the first `|` (so it contains
none), the name is everything after that first `|`, and `ID ++ "|" ++ Name = s`. -/
theorem C2_parseChannelProps_splits_at_first_bar (s : String) :
    ((∃ e, parseChannelProps s = .error e) ↔ '|' ∉ s.data) ∧
    ('|' ∈ s.data → ∃ cp, parseChannelProps s = .ok cp) ∧
    (∀ cp, parseChannelProps s = .ok cp →
      cp.ID.data = s.data.takeWhile (fun c => c != '|') ∧
      '|' ∉ cp.ID.data ∧
      cp.Name.data = (s.data.dropWhile (fun c => c != '|')).drop 1 ∧
      cp.Name.data = s.data.drop (cp.ID.data.length + 1) ∧
      cp.ID ++ "|" ++ cp.Name = s) := by
  by_cases hmem : '|' ∈ s.data
  · obtain ⟨a, b, hab, ha, hta, hdb⟩ := exists_first_bar s.data hmem
    have hp := parseChannelProps_of_append s a b hab ha
    refine ⟨⟨?_, fun hn => absurd hmem hn⟩, fun _ => ⟨_, hp⟩, ?_⟩
    · rintro ⟨e, he⟩
      rw [hp] at he
      cases he
    · intro cp hcp
      rw [hp] at hcp
      cases hcp
      refine ⟨hta, ha, hdb, ?_, ?_⟩
      · simp [hab]
      · apply String.ext
        have hsep : ("|" : String).data = ['|'] := rfl
        simp [String.data_append, hsep, hab]
  · have hp := parseChannelProps_of_not_mem s hmem
    refine ⟨⟨fun _ => hmem, fun _ => ⟨_, hp⟩⟩, fun h => absurd h hmem, ?_⟩
    intro cp hcp
    rw [hp] at hcp
    cases hcp

/-! ## Channel directory filters -/

/-- C3: `selectTimesChannels cs x` is `cs` filtered by "name has prefix `times-` and id is
not `x`": it is a sub-sequence of `cs` in input order, none of its channels has id `x`,
every one of its names starts with `times-`, and no channel of `cs` with both properties is
left out. -/
theorem C3_selectTimesChannels_is_filter (cs : slackChannels) (x : String) :
    selectTimesChannels cs x
      = cs.filter (fun ch => strings.HasPrefix ch.Name "times-" && decide (ch.ID ≠ x)) ∧
    List.Sublist (selectTimesChannels cs x) cs ∧
    (∀ ch ∈ selectTimesChannels cs x,
      ch.ID ≠ x ∧ strings.HasPrefix ch.Name "times-" = true
        ∧ ∃ rest : String, ch.Name = "times-" ++ rest) ∧
    (∀ ch ∈ cs, strings.HasPrefix ch.Name "times-" = true → ch.ID ≠ x →
      ch ∈ selectTimesChannels cs x) := by
  have heq := selectTimesChannels_eq_filter cs x
  refine ⟨heq, ?_, ?_, ?_⟩
  · rw [heq]
    exact List.filter_sublist cs
  · intro ch hch
    rw [heq, List.mem_filter] at hch
    have h2 := hch.2
    simp only [Bool.and_eq_true, decide_eq_true_eq] at h2
    exact ⟨h2.2, h2.1, (strings.HasPrefix_iff _ _).mp h2.1⟩
  · intro ch hch hp hid
    rw [heq, List.mem_filter]
    exact ⟨hch, by simp [hp, hid]⟩

/-- C4: `selectTimesChannelsOfUser cs u x` is `cs` filtered, in input order, by "creator is
`u`, name has prefix `times-`, id is not `x`"; it is `selectTimesChannels cs x` restricted
to the channels created by `u`; the prefix test is case-sensitive; and of the channels
`times-a` (created by the user), `times-b` (created by someone else) and `general` only
`times-a` is selected. -/
theorem C4_selectTimesChannelsOfUser_is_filter (cs : slackChannels) (u x : String) :
    selectTimesChannelsOfUser cs u x
      = cs.filter (fun ch =>
          decide (ch.Creator = u) && strings.HasPrefix ch.Name "times-"
            && decide (ch.ID ≠ x)) ∧
    selectTimesChannelsOfUser cs u x
      = (selectTimesChannels cs x).filter (fun ch => decide (ch.Creator = u)) ∧
    List.Sublist (selectTimesChannelsOfUser cs u x) cs ∧
    (∀ ch, ch ∈ selectTimesChannelsOfUser cs u x ↔
      ch ∈ cs ∧ ch.Creator = u ∧ (∃ rest : String, ch.Name = "times-" ++ rest) ∧ ch.ID ≠ x) ∧
    selectTimesChannelsOfUser
        [{ ID := "C1", Name := "times-a", Creator := "U1" },
         { ID := "C2", Name := "times-b", Creator := "U2" },
         { ID := "C3", Name := "general", Creator := "U1" },
         { ID := "C4", Name := "Times-c", Creator := "U1" }] "U1" "C9"
      = [{ ID := "C1", Name := "times-a", Creator := "U1" }] := by
  have heq : selectTimesChannelsOfUser cs u x
      = cs.filter (fun ch =>
          decide (ch.Creator = u) && strings.HasPrefix ch.Name "times-"
            && decide (ch.ID ≠ x)) := by
    unfold selectTimesChannelsOfUser
    rw [foldl_append_if_eq_filter
      (fun ch : Channel =>
        ch.Creator = u ∧ strings.HasPrefix ch.Name "times-" = true ∧ ch.ID ≠ x)]
    rw [List.nil_append]
    congr 1
    funext ch
    simp [Bool.and_assoc]
  refine ⟨heq, ?_, ?_, ?_, by decide⟩
  · rw [heq, selectTimesChannels_eq_filter cs x, List.filter_filter]
    congr 1
    funext ch
    cases decide (ch.Creator = u) <;> simp
  · rw [heq]
    exact List.filter_sublist cs
  · intro ch
    rw [heq, List.mem_filter]
    simp only [Bool.and_eq_true, decide_eq_true_eq, strings.HasPrefix_iff]
    tauto

/-! ## View patching -/

/-- C8: `buildUpdatedAppHomeView blocks t r` yields a block list of the same length whose
position `i` holds `r` when `blocks[i]` has a non-empty `BlockID` equal to `t`, and
`blocks[i]` otherwise.  Hence the output is the input when no block matches, every matching
block is replaced, a block with an empty `BlockID` is never replaced (also for `t = ""`),
and `[x, y, z]` patched at `y` with `y2` is `[x, y2, z]`. -/
theorem C8_buildUpdatedAppHomeView_replaces_matching (blocks : List Block) (t : String)
    (r : Block) :
    (buildUpdatedAppHomeView blocks t r).Blocks
      = blocks.map (fun b => if b.BlockID ≠ "" ∧ b.BlockID = t then r else b) ∧
    (buildUpdatedAppHomeView blocks t r).Blocks.length = blocks.length ∧
    (∀ i : Nat, (buildUpdatedAppHomeView blocks t r).Blocks[i]?
      = (blocks[i]?).map (fun b => if b.BlockID ≠ "" ∧ b.BlockID = t then r else b)) ∧
    ((∀ b ∈ blocks, ¬ (b.BlockID ≠ "" ∧ b.BlockID = t)) →
      (buildUpdatedAppHomeView blocks t r).Blocks = blocks) ∧
    (∀ (i : Nat) (b : Block), blocks[i]? = some b → b.BlockID = "" →
      (buildUpdatedAppHomeView blocks t r).Blocks[i]? = some b) ∧
    (∀ (i : Nat) (b : Block), blocks[i]? = some b → b.BlockID ≠ "" → b.BlockID = t →
      (buildUpdatedAppHomeView blocks t r).Blocks[i]? = some r) ∧
    (buildUpdatedAppHomeView
        [{ BlockID := "x", body := .DividerBlock }, { BlockID := "y", body := .DividerBlock },
         { BlockID := "z", body := .DividerBlock }] "y"
        { BlockID := "y2", body := .DividerBlock }).Blocks
      = [{ BlockID := "x", body := .DividerBlock }, { BlockID := "y2", body := .DividerBlock },
         { BlockID := "z", body := .DividerBlock }] ∧
    (buildUpdatedAppHomeView
        [{ BlockID := "", body := .DividerBlock }, { BlockID := "x", body := .DividerBlock }] ""
        { BlockID := "y2", body := .DividerBlock }).Blocks
      = [{ BlockID := "", body := .DividerBlock }, { BlockID := "x", body := .DividerBlock }] := by
  have heq : (buildUpdatedAppHomeView blocks t r).Blocks
      = blocks.map (fun b => if b.BlockID ≠ "" ∧ b.BlockID = t then r else b) := by
    unfold buildUpdatedAppHomeView
    simp only
    rw [foldl_append_ite_eq_map (fun b : Block => b.BlockID ≠ "" ∧ b.BlockID = t)]
    simp
  refine ⟨heq, ?_, ?_, ?_, ?_, ?_, by decide, by decide⟩
  · rw [heq, List.length_map]
  · intro i
    rw [heq, List.getElem?_map]
  · intro hno
    rw [heq]
    conv_rhs => rw [← List.map_id blocks]
    apply List.map_congr_left
    intro b hb
    simp [hno b hb]
  · intro i b hb hempty
    rw [heq, List.getElem?_map, hb]
    simp [hempty]
  · intro i b hb hne ht
    have hne2 : t ≠ "" := ht ▸ hne
    rw [heq, List.getElem?_map, hb]
    simp [ht, hne2]

/-! ## Post counting -/

theorem countPosts_eq (msgs : List Message) (cnt : Nat) :
    countPosts msgs cnt = cnt + msgs.countP isOrdinaryPost := by
  unfold countPosts
  induction msgs generalizing cnt with
  | nil => simp
  | cons m ms ih =>
    rw [List.foldl_cons, ih, List.countP_cons]
    by_cases h : m.Type_ = "message" ∧ m.SubType = ""
    · have hp : isOrdinaryPost m = true := by simp [isOrdinaryPost, h.1, h.2]
      simp only [h, and_self, if_true, hp]
      omega
    · have hp : isOrdinaryPost m = false := by
        simp only [isOrdinaryPost, Bool.and_eq_false_iff, decide_eq_false_iff_not]
        by_cases h1 : m.Type_ = "message"
        · exact Or.inr (fun h2 => h ⟨h1, h2⟩)
        · exact Or.inl h1
      simp only [h, if_false, hp]
      simp

theorem getChannelPostCountAfter_reads_first_page_only {σ : Type} (api : SlackAPI σ)
    (chanID : String) (t : Int) (page : HistoryPage) (fuel : Nat) (st : σ)
    (h : (api.GetConversationHistory (historyParams chanID (toString t) "") st).1
      = (some (decodeHistoryResponse page), none)) :
    (getChannelPostCountAfter api (fuel + 1) chanID t st).1
        = .ok (page.messages.countP isOrdinaryPost) ∧
    (getChannelPostCountAfter api (fuel + 1) chanID t st).2.1
        = [historyParams chanID (toString t) ""] := by
  have h2 : api.GetConversationHistory (historyParams chanID (toString t) "") st
      = ((some (decodeHistoryResponse page), none),
          (api.GetConversationHistory (historyParams chanID (toString t) "") st).2) := by
    rw [← h]
  unfold getChannelPostCountAfter
  simp only [getChannelPostCountAfterLoop]
  rw [h2]
  simp [decodeHistoryResponse, countPosts_eq]

/-- C5 fails on the code: the demonstration platform serves the history of `C5` as two
successful pages (a post and a join notice with `next_cursor` `p2`, then two posts with an
empty cursor), three ordinary posts in all.  `getChannelPostCountAfter` reads
`resp.ResponseMetadata.Cursor`, which the client leaves empty, so it issues a single
request (empty cursor), never asks for the second page, and returns 1. -/
theorem C5_getChannelPostCountAfter_stops_after_first_page :
    servesHistoryPages demoAPI "C5" (toString (1700000000 : Int)) demoHistoryPages "" 0 ∧
    demoHistoryPages.length = 2 ∧
    (demoHistoryPages.map (fun p => p.messages)).flatten.countP isOrdinaryPost = 3 ∧
    (getChannelPostCountAfter demoAPI 5 "C5" 1700000000 0).1 = .ok 1 ∧
    (getChannelPostCountAfter demoAPI 5 "C5" 1700000000 0).2.1.map (fun c => c.Cursor)
      = [""] := by
  refine ⟨?_, by decide, by decide, by decide, by decide⟩
  simp [servesHistoryPages, demoHistoryPages, demoAPI, historyParams]

/-! ## The aggregation loop -/

theorem countOutcomes_length {σ : Type} (api : SlackAPI σ) (fuel : Nat) (hourAgo : Int)
    (chans : slackChannels) :
    ∀ st : σ, (countOutcomes api fuel hourAgo chans st).length = chans.length := by
  induction chans with
  | nil => intro st; rfl
  | cons ch rest ih => intro st; simp [countOutcomes, ih]

theorem statOf_ok (ch : Channel) (n : Nat) :
    statOf ch (.ok n) = if 0 < n then some { chanID := ch.ID, postCnt := n } else none := rfl

theorem statOf_err (ch : Channel) (e : GoError) : statOf ch (.err e) = none := rfl

theorem collectTimesStats_of_outcomes {σ : Type} (api : SlackAPI σ) (fuel : Nat)
    (hourAgo : Int) (chans : slackChannels) :
    ∀ (acc : List timesStat) (st : σ),
      (∀ r ∈ countOutcomes api fuel hourAgo chans st, countedOrNotMember r = true) →
      (collectTimesStats api fuel hourAgo chans acc st).1
        = .ok (acc ++ (chans.zip (countOutcomes api fuel hourAgo chans st)).filterMap
            (fun p => statOf p.1 p.2)) := by
  induction chans with
  | nil => intro acc st _; simp [collectTimesStats, countOutcomes]
  | cons ch rest ih =>
    intro acc st hall
    rcases hrun : getChannelPostCountAfter api fuel ch.ID hourAgo st with ⟨out, calls, st1⟩
    have hout : countedOrNotMember out = true := by
      apply hall
      simp [countOutcomes, hrun]
    have hrest : ∀ r ∈ countOutcomes api fuel hourAgo rest st1,
        countedOrNotMember r = true := by
      intro r hr
      apply hall
      simp [countOutcomes, hrun, hr]
    cases out with
    | ok n =>
      have h := ih (if n ≠ 0 then acc ++ [{ chanID := ch.ID, postCnt := n }] else acc) st1 hrest
      simp only [collectTimesStats, hrun, countOutcomes, List.zip_cons_cons,
        List.filterMap_cons, statOf_ok]
      rw [h]
      by_cases hn : n = 0
      · simp [hn]
      · have hpos : 0 < n := Nat.pos_of_ne_zero hn
        simp [hn, hpos]
    | err e =>
      have he : e = .NotInChannelError := by simpa [countedOrNotMember] using hout
      subst he
      have h := ih acc st1 hrest
      simp only [collectTimesStats, hrun, countOutcomes, List.zip_cons_cons,
        List.filterMap_cons, statOf_err, if_true]
      rw [h]
    | panicked => simp [countedOrNotMember] at hout
    | outOfFuel => simp [countedOrNotMember] at hout

/-- C6: when the post count of every selected channel either succeeds or fails with
`NotInChannelError`, the aggregation loop of `CollectSlackTimesNews` is not aborted and
collects exactly, in channel order, the entries `(channel id, count)` of the channels whose
count succeeded with a count above zero; a channel reporting not-in-channel and a channel
with count zero contribute nothing.  On the demonstration platform: of three channels with
the second not a member, the first and third are collected; of two channels with counts 0
and 4, only the second. -/
theorem C6_collectTimesStats_skips_not_member {σ : Type} (api : SlackAPI σ) (fuel : Nat)
    (hourAgo : Int) (chans : slackChannels) (st : σ)
    (hall : ∀ r ∈ countOutcomes api fuel hourAgo chans st, countedOrNotMember r = true) :
    (collectTimesStats api fuel hourAgo chans [] st).1
        = .ok ((chans.zip (countOutcomes api fuel hourAgo chans st)).filterMap
            (fun p => statOf p.1 p.2)) ∧
    (countOutcomes api fuel hourAgo chans st).length = chans.length ∧
    (∀ ch, statOf ch (.err .NotInChannelError) = none ∧ statOf ch (.ok 0) = none) ∧
    (∀ ch n, 0 < n → statOf ch (.ok n) = some { chanID := ch.ID, postCnt := n }) ∧
    (collectTimesStats demoAPI 5 1700000000
        [{ ID := "C1", Name := "times-a", Creator := "U1" },
         { ID := "C2", Name := "times-b", Creator := "U2" },
         { ID := "C3", Name := "times-c", Creator := "U3" }] [] 0).1
      = .ok [{ chanID := "C1", postCnt := 3 }, { chanID := "C3", postCnt := 4 }] ∧
    (collectTimesStats demoAPI 5 1700000000
        [{ ID := "C4", Name := "times-d", Creator := "U4" },
         { ID := "C3", Name := "times-c", Creator := "U3" }] [] 0).1
      = .ok [{ chanID := "C3", postCnt := 4 }] := by
  refine ⟨?_, countOutcomes_length api fuel hourAgo chans st, ?_, ?_, by decide, by decide⟩
  · have h := collectTimesStats_of_outcomes api fuel hourAgo chans [] st hall
    simpa using h
  · intro ch
    exact ⟨rfl, rfl⟩
  · intro ch n hn
    simp [statOf, hn]

/-- C6 on the demonstration platform: three channels, the watcher not a member of the
second. -/
theorem C6_collectTimesStats_witness :
    (∀ r ∈ countOutcomes demoAPI 5 1700000000
        [{ ID := "C1", Name := "times-a", Creator := "U1" },
         { ID := "C2", Name := "times-b", Creator := "U2" },
         { ID := "C3", Name := "times-c", Creator := "U3" }] 0,
      countedOrNotMember r = true) ∧
    countOutcomes demoAPI 5 1700000000
        [{ ID := "C1", Name := "times-a", Creator := "U1" },
         { ID := "C2", Name := "times-b", Creator := "U2" },
         { ID := "C3", Name := "times-c", Creator := "U3" }] 0
      = [.ok 3, .err .NotInChannelError, .ok 4] ∧
    (collectTimesStats demoAPI 5 1700000000
        [{ ID := "C1", Name := "times-a", Creator := "U1" },
         { ID := "C2", Name := "times-b", Creator := "U2" },
         { ID := "C3", Name := "times-c", Creator := "U3" }] [] 0).1
      = .ok [{ chanID := "C1", postCnt := 3 }, { chanID := "C3", postCnt := 4 }] :=
  ⟨by decide, by decide,
    (C6_collectTimesStats_skips_not_member demoAPI 5 1700000000
      [{ ID := "C1", Name := "times-a", Creator := "U1" },
       { ID := "C2", Name := "times-b", Creator := "U2" },
       { ID := "C3", Name := "times-c", Creator := "U3" }] 0 (by decide)).2.2.2.2.1⟩

/-! ## Watch state query -/

theorem checkIfWatchingChannel_reads_one_page {σ : Type} (api : SlackAPI σ)
    (channel : Channel) (botUserID : String) (st : σ) (users : List String)
    (nextCursor : String)
    (h : (api.GetUsersInConversation (membersParams channel.ID "") st).1
      = (users, nextCursor, none)) :
    (checkIfWatchingChannel api channel botUserID st).1
        = .ok (decide (botUserID ∈ users)) ∧
    (checkIfWatchingChannel api channel botUserID st).2.1
        = [.GetUsersInConversation (membersParams channel.ID "")] := by
  have h2 : api.GetUsersInConversation (membersParams channel.ID "") st
      = ((users, nextCursor, none),
          (api.GetUsersInConversation (membersParams channel.ID "") st).2) := by
    rw [← h]
  unfold membersParams at h2
  unfold checkIfWatchingChannel membersParams
  simp only []
  rw [h2]
  refine ⟨?_, rfl⟩
  simp only []
  congr 1
  clear h h2
  induction users with
  | nil => simp
  | cons u us ih =>
    rw [List.any_cons, ih]
    simp [eq_comm]

/-- C9 fails on the code: the demonstration platform serves the membership of `C1` in two
pages with the watcher `UBOT` on the second page only, so `UBOT` occurs in the
concatenation of the pages; `checkIfWatchingChannel` issues a single request (empty cursor),
never asks for the second page, and answers `false`. -/
theorem C9_checkIfWatchingChannel_misses_later_pages :
    servesMemberPages demoAPI "C1" demoMemberPages "" 0 ∧
    "UBOT" ∈ (demoMemberPages.map Prod.fst).flatten ∧
    (checkIfWatchingChannel demoAPI { ID := "C1", Name := "times-a", Creator := "U1" }
        "UBOT" 0).1 = .ok false ∧
    (checkIfWatchingChannel demoAPI { ID := "C1", Name := "times-a", Creator := "U1" }
        "UBOT" 0).2.1
      = [.GetUsersInConversation { ChannelID := "C1", Cursor := "", Limit := 0 }] := by
  refine ⟨?_, by decide, by decide, by decide⟩
  simp [servesMemberPages, demoMemberPages, demoAPI, membersParams]

/-! ## The toggle handler -/

/-- C10 (as amended): with the client set up, a toggle interaction whose first action value
contains no `|` is answered with status 500; the handler issues no API call at all — no
join, no leave, no modal, no republished home view — and leaves the platform untouched. -/
theorem C10_undecodable_value_gives_500 {σ : Type} (api : SlackAPI σ)
    (getenv : String → String) (ev : InteractionCallback) (action : BlockAction)
    (rest : List BlockAction) (st : σ)
    (hsetup : getenv "SLACK_BOT_TOKEN" ≠ "")
    (hact : ev.ActionCallback.BlockActions = action :: rest)
    (hbad : '|' ∉ action.Value.data) :
    HandleToggleWatchStateRequest api getenv (.ok ev) st = (.status 500, [], st) := by
  unfold HandleToggleWatchStateRequest
  simp [setupSlackAPI, hsetup, hact, parseChannelProps_of_not_mem _ hbad]

/-- C10 (as amended) at the interaction whose value is the bare id `C2`. -/
theorem C10_undecodable_value_witness :
    demoGetenv "SLACK_BOT_TOKEN" ≠ "" ∧
    '|' ∉ ("C2" : String).data ∧
    HandleToggleWatchStateRequest demoAPI demoGetenv
        (.ok (demoInteraction actionApproveWatching "C2")) 0 = (.status 500, [], 0) :=
  ⟨by decide, by decide,
    C10_undecodable_value_gives_500 demoAPI demoGetenv
      (demoInteraction actionApproveWatching "C2")
      { ActionID := actionApproveWatching, BlockID := "b1", Value := "C2" } [] 0
      (by decide) rfl (by decide)⟩

/-- C10 as stated fails: for the undecodable value `C2` the handler answers 500 and opens
no modal, whereas a failed join (value `C2|times-b`, the platform refuses to join `C2`)
is answered with 200 after the join attempt and the error modal. -/
theorem C10_undecodable_value_counterexample :
    HandleToggleWatchStateRequest demoAPI demoGetenv
        (.ok (demoInteraction actionApproveWatching "C2")) 0 = (.status 500, [], 0) ∧
    HandleToggleWatchStateRequest demoAPI demoGetenv
        (.ok (demoInteraction actionApproveWatching "C2|times-b")) 0
      = (.status 200,
          [.JoinConversation "C2",
           .OpenView "trigger-1" (buildErrorModal { ID := "C2", Name := "times-b" })], 2) ∧
    ¬ ((HandleToggleWatchStateRequest demoAPI demoGetenv
          (.ok (demoInteraction actionApproveWatching "C2")) 0).1 = .status 200 ∧
       ∃ view, APICall.OpenView "trigger-1" view ∈
         (HandleToggleWatchStateRequest demoAPI demoGetenv
          (.ok (demoInteraction actionApproveWatching "C2")) 0).2.1) := by
  have h1 : HandleToggleWatchStateRequest demoAPI demoGetenv
      (.ok (demoInteraction actionApproveWatching "C2")) 0 = (.status 500, [], 0) := by
    decide
  refine ⟨h1, by decide, ?_⟩
  rw [h1]
  rintro ⟨h, _⟩
  cases h

/-! ## The ordering of the digest -/

theorem sort.swapAt_length {α : Type} (l : List α) (i j : Nat) :
    (sort.swapAt l i j).length = l.length := by
  unfold sort.swapAt
  split <;> simp

theorem sort.swapAt_perm {α : Type} [DecidableEq α] (l : List α) (i j : Nat) :
    (sort.swapAt l i j).Perm l := by
  unfold sort.swapAt
  split
  · rename_i x y hx hy
    obtain ⟨hi, hxi⟩ := List.getElem?_eq_some.mp hx
    obtain ⟨hj, hyj⟩ := List.getElem?_eq_some.mp hy
    by_cases hij : i = j
    · subst hij
      have hxy : x = y := by rw [← hxi, ← hyj]
      subst hxy
      have h1 : l.set i x = l := by
        apply List.ext_getElem?
        intro k
        by_cases hk : i = k
        · subst hk
          simp [hx, hi]
        · simp [List.getElem?_set_ne hk]
      rw [h1, h1]
    · rw [List.perm_iff_count]
      intro a
      have hj2 : j < (l.set i y).length := by simpa using hj
      rw [List.count_set x a (l.set i y) j hj2, List.count_set y a l i hi]
      have hget : (l.set i y)[j] = y := by
        rw [List.getElem_set_ne hij]
        exact hyj
      rw [hget, hxi]
      have hxmem : x ∈ l := hxi ▸ List.getElem_mem hi
      have hymem : y ∈ l := hyj ▸ List.getElem_mem hj
      by_cases hxa : x = a
      · have hc : 1 ≤ List.count a l := List.one_le_count_iff.mpr (hxa ▸ hxmem)
        by_cases hya : y = a
        · simp [hxa, hya]
          omega
        · simp [hxa, hya]
          omega
      · by_cases hya : y = a
        · simp [hxa, hya]
        · simp [hxa, hya]
  · exact List.Perm.refl _

theorem foldl_perm_of_step_perm {α β : Type} (f : List α → β → List α)
    (hf : ∀ l b, (f l b).Perm l) (bs : List β) :
    ∀ l : List α, (bs.foldl f l).Perm l := by
  induction bs with
  | nil => intro l; exact List.Perm.refl _
  | cons b bs ih => intro l; exact (ih (f l b)).trans (hf l b)

theorem sort.insertionInner_perm {α : Type} [DecidableEq α] (less : α → α → Bool) (a : Nat) :
    ∀ (j : Nat) (l : List α), (sort.insertionInner less a j l).Perm l := by
  intro j
  induction j with
  | zero => intro l; exact List.Perm.refl _
  | succ j ih =>
    intro l
    unfold sort.insertionInner
    split
    · exact (ih _).trans (sort.swapAt_perm l (j + 1) j)
    · exact List.Perm.refl _

theorem sort.insertionSort_func_perm {α : Type} [DecidableEq α] (less : α → α → Bool)
    (l : List α) (a b : Nat) : (sort.insertionSort_func less l a b).Perm l := by
  unfold sort.insertionSort_func
  exact foldl_perm_of_step_perm _ (fun l i => sort.insertionInner_perm less a i l) _ l

theorem sort.quickSort_func_small_perm {α : Type} [DecidableEq α] (less : α → α → Bool)
    (l : List α) (a b : Nat) : (sort.quickSort_func_small less l a b).Perm l := by
  unfold sort.quickSort_func_small
  split
  · refine (sort.insertionSort_func_perm less _ a b).trans ?_
    apply foldl_perm_of_step_perm
    intro l i
    split
    · exact sort.swapAt_perm l i (i - 6)
    · exact List.Perm.refl _
  · exact List.Perm.refl _

theorem getElem?_append_at_length {α : Type} (A : List α) (y : α) (T : List α) :
    (A ++ y :: T)[A.length]? = some y := by
  induction A with
  | nil => simp
  | cons a A ih => simpa using ih

theorem getElem?_append_at_length_succ {α : Type} (A : List α) (y x : α) (T : List α) :
    (A ++ y :: x :: T)[A.length + 1]? = some x := by
  induction A with
  | nil => simp
  | cons a A ih => simpa using ih

theorem set_set_append_adjacent {α : Type} (A : List α) (y x : α) (T : List α) :
    ((A ++ y :: x :: T).set (A.length + 1) y).set A.length x = A ++ x :: y :: T := by
  induction A with
  | nil => simp
  | cons a A ih => simp [ih]

theorem sort.lessAt_adjacent {α : Type} (less : α → α → Bool) (A : List α) (y x : α)
    (T : List α) :
    sort.lessAt less (A ++ y :: x :: T) (A.length + 1) A.length = less x y := by
  unfold sort.lessAt
  rw [getElem?_append_at_length_succ, getElem?_append_at_length]

theorem sort.swapAt_adjacent {α : Type} (A : List α) (y x : α) (T : List α) :
    sort.swapAt (A ++ y :: x :: T) (A.length + 1) A.length = A ++ x :: y :: T := by
  unfold sort.swapAt
  rw [getElem?_append_at_length_succ, getElem?_append_at_length]
  exact set_set_append_adjacent A y x T

theorem StrictWeakOrder.asymm {α : Type} {less : α → α → Bool} (h : StrictWeakOrder less)
    {a b : α} (hab : less a b = true) : less b a = false := by
  cases hba : less b a with
  | false => rfl
  | true =>
    have haa := h.2.1 a b a hab hba
    rw [h.1 a] at haa
    cases haa

theorem sort.insertionInner_sorted {α : Type} (less : α → α → Bool)
    (hswo : StrictWeakOrder less) (P1 : List α) :
    ∀ (P2 R : List α) (x : α),
      P1.Pairwise (fun a b => less b a = false) →
      P2.Pairwise (fun a b => less b a = false) →
      (∀ q ∈ P2, less x q = true) →
      (∀ p ∈ P1, ∀ q ∈ P2, less q p = false) →
      ∃ S, sort.insertionInner less 0 P1.length (P1 ++ x :: (P2 ++ R)) = S ++ R
        ∧ S.Pairwise (fun a b => less b a = false)
        ∧ S.length = P1.length + 1 + P2.length := by
  induction P1 using List.reverseRecOn with
  | nil =>
    intro P2 R x _ h2 h3 _
    refine ⟨x :: P2, by simp [sort.insertionInner], ?_, by simp; omega⟩
    rw [List.pairwise_cons]
    exact ⟨fun q hq => hswo.asymm (h3 q hq), h2⟩
  | append_singleton P1 y ih =>
    intro P2 R x h1 h2 h3 h4
    rw [List.pairwise_append] at h1
    obtain ⟨h1a, _, h1c⟩ := h1
    have hl : (P1 ++ [y]) ++ x :: (P2 ++ R) = P1 ++ y :: x :: (P2 ++ R) := by simp
    have hlen : (P1 ++ [y]).length = P1.length + 1 := by simp
    rw [hl, hlen]
    unfold sort.insertionInner
    rw [sort.lessAt_adjacent, sort.swapAt_adjacent]
    by_cases hxy : less x y = true
    · have hcond : P1.length + 1 > 0 ∧ less x y = true := ⟨Nat.succ_pos _, hxy⟩
      rw [if_pos hcond]
      have hy2 : (y :: P2).Pairwise (fun a b => less b a = false) := by
        rw [List.pairwise_cons]
        exact ⟨fun q hq => h4 y (by simp) q hq, h2⟩
      have hx2 : ∀ q ∈ y :: P2, less x q = true := by
        intro q hq
        rcases List.mem_cons.mp hq with e | e
        · rw [e]; exact hxy
        · exact h3 q e
      have hp2 : ∀ p ∈ P1, ∀ q ∈ y :: P2, less q p = false := by
        intro p hp q hq
        rcases List.mem_cons.mp hq with e | e
        · rw [e]; exact h1c p hp y (by simp)
        · exact h4 p (by simp [hp]) q e
      obtain ⟨S, hS, hSs, hSl⟩ := ih (y :: P2) R x h1a hy2 hx2 hp2
      refine ⟨S, ?_, hSs, ?_⟩
      · rw [← hS]
        simp
      · rw [hSl]
        simp only [List.length_cons]
        omega
    · have hxy2 : less x y = false := by simpa using hxy
      have hcond : ¬ (P1.length + 1 > 0 ∧ less x y = true) := fun h => hxy h.2
      rw [if_neg hcond]
      refine ⟨(P1 ++ [y]) ++ x :: P2, by simp, ?_, by simp; omega⟩
      rw [List.pairwise_append]
      refine ⟨?_, ?_, ?_⟩
      · rw [List.pairwise_append]
        exact ⟨h1a, by simp, h1c⟩
      · rw [List.pairwise_cons]
        exact ⟨fun q hq => hswo.asymm (h3 q hq), h2⟩
      · intro p hp q hq
        rcases List.mem_cons.mp hq with e | e
        · rw [e]
          rcases List.mem_append.mp hp with hp1 | hp1
          · exact hswo.2.2 x y p hxy2 (h1c p hp1 y (by simp))
          · have : p = y := by simpa using hp1
            rw [this]
            exact hxy2
        · exact h4 p hp q e

theorem sort.insertionSort_loop_sorted {α : Type} (less : α → α → Bool)
    (hswo : StrictWeakOrder less) (R : List α) :
    ∀ P : List α, P.Pairwise (fun a b => less b a = false) →
      ((List.range' P.length R.length).foldl
          (fun l i => sort.insertionInner less 0 i l) (P ++ R)).Pairwise
        (fun a b => less b a = false) := by
  induction R with
  | nil => intro P hP; simpa using hP
  | cons x R ih =>
    intro P hP
    obtain ⟨S, hS, hSs, hSl⟩ :=
      sort.insertionInner_sorted less hswo P [] R x hP List.Pairwise.nil
        (fun q hq => absurd hq (List.not_mem_nil q))
        (fun p _ q hq => absurd hq (List.not_mem_nil q))
    simp only [List.nil_append] at hS
    have hSl2 : P.length + 1 = S.length := by
      rw [hSl]
      simp
    rw [List.length_cons, List.range'_succ, List.foldl_cons, hS, hSl2]
    exact ih S hSs

theorem foldl_length_of_step_length {α β : Type} (f : List α → β → List α)
    (hf : ∀ l b, (f l b).length = l.length) (bs : List β) :
    ∀ l : List α, (bs.foldl f l).length = l.length := by
  induction bs with
  | nil => intro l; rfl
  | cons b bs ih => intro l; rw [List.foldl_cons, ih, hf]

theorem sort.SliceSmall_sorted {α : Type} (less : α → α → Bool)
    (hswo : StrictWeakOrder less) (x : List α) :
    (sort.SliceSmall less x).Pairwise (fun a b => less b a = false) := by
  unfold sort.SliceSmall sort.quickSort_func_small
  split
  · rename_i hlen
    simp only []
    generalize hl1 : (List.range' (0 + 6) (x.length - (0 + 6))).foldl
      (fun l i => if sort.lessAt less l i (i - 6) = true then sort.swapAt l i (i - 6) else l) x
      = l1
    have hlen1 : l1.length = x.length := by
      rw [← hl1]
      apply foldl_length_of_step_length
      intro l i
      split
      · exact sort.swapAt_length l i (i - 6)
      · rfl
    unfold sort.insertionSort_func
    cases l1 with
    | nil =>
      simp only [List.length_nil] at hlen1
      omega
    | cons x0 rest =>
      have hr : x.length - (0 + 1) = rest.length := by
        rw [← hlen1]
        simp
      rw [hr]
      exact sort.insertionSort_loop_sorted less hswo rest [x0] (List.pairwise_singleton _ _)
  · rename_i hlen
    match x, hlen with
    | [], _ => exact List.Pairwise.nil
    | [a], _ => exact List.pairwise_singleton _ _
    | a :: b :: t, h => exact absurd (by simp) h

theorem sort.SliceSmall_contract : SortSliceContract sort.SliceSmall := by
  intro less x hswo
  exact ⟨sort.quickSort_func_small_perm less x 0 x.length, sort.SliceSmall_sorted less hswo x⟩

theorem lessPostCnt_strictWeakOrder : StrictWeakOrder lessPostCnt := by
  refine ⟨?_, ?_, ?_⟩
  · intro a
    simp [lessPostCnt]
  · intro a b c hab hbc
    simp only [lessPostCnt, decide_eq_true_eq] at hab hbc ⊢
    omega
  · intro a b c hab hbc
    simp only [lessPostCnt, decide_eq_false_iff_not] at hab hbc ⊢
    omega

/-- C7 (as amended): for every `sort.Slice` that keeps its documented promise, the entries
handed to `buildTimesNewsMessage` are a permutation of the collected entries and stand in
ascending order of `postCnt` (each entry's count is at most that of every later entry, in
particular of the next one); the order among entries with equal counts is left open.
Counts `[5, 1, 3]` for channels `[A, B, C]` come out as `[B(1), C(3), A(5)]`. -/
theorem C7_digest_order_ascending_permutation (sortSlice : SortSlice)
    (hsort : SortSliceContract sortSlice) (timesStats : List timesStat) :
    (sortTimesStats sortSlice timesStats).Perm timesStats ∧
    (sortTimesStats sortSlice timesStats).Pairwise (fun a b => a.postCnt ≤ b.postCnt) ∧
    (sortTimesStats sortSlice timesStats).Chain' (fun a b => a.postCnt ≤ b.postCnt) ∧
    sortTimesStats sortSlice
        [{ chanID := "A", postCnt := 5 }, { chanID := "B", postCnt := 1 },
         { chanID := "C", postCnt := 3 }]
      = [{ chanID := "B", postCnt := 1 }, { chanID := "C", postCnt := 3 },
         { chanID := "A", postCnt := 5 }] := by
  have hasc : ∀ l : List timesStat,
      (sortTimesStats sortSlice l).Pairwise (fun a b => a.postCnt ≤ b.postCnt) := by
    intro l
    have h := (hsort lessPostCnt l lessPostCnt_strictWeakOrder).2
    refine List.Pairwise.imp ?_ h
    intro a b hab
    simp only [lessPostCnt, decide_eq_false_iff_not] at hab
    omega
  have hperm : ∀ l : List timesStat, (sortTimesStats sortSlice l).Perm l :=
    fun l => (hsort lessPostCnt l lessPostCnt_strictWeakOrder).1
  refine ⟨hperm timesStats, hasc timesStats, List.Pairwise.chain' (hasc timesStats), ?_⟩
  have hp := hperm [{ chanID := "A", postCnt := 5 }, { chanID := "B", postCnt := 1 },
    { chanID := "C", postCnt := 3 }]
  have ha := hasc [{ chanID := "A", postCnt := 5 }, { chanID := "B", postCnt := 1 },
    { chanID := "C", postCnt := 3 }]
  generalize sortTimesStats sortSlice
    [{ chanID := "A", postCnt := 5 }, { chanID := "B", postCnt := 1 },
     { chanID := "C", postCnt := 3 }] = out at hp ha
  have hlen := hp.length_eq
  match out, hlen with
  | [a, b, c], _ =>
    have hA : ({ chanID := "A", postCnt := 5 } : timesStat) ∈ [a, b, c] :=
      hp.mem_iff.mpr (by simp)
    have hB : ({ chanID := "B", postCnt := 1 } : timesStat) ∈ [a, b, c] :=
      hp.mem_iff.mpr (by simp)
    have hC : ({ chanID := "C", postCnt := 3 } : timesStat) ∈ [a, b, c] :=
      hp.mem_iff.mpr (by simp)
    simp only [List.pairwise_cons, List.mem_cons, List.mem_singleton, forall_eq_or_imp,
      forall_eq, List.not_mem_nil, false_implies, implies_true, and_true,
      List.Pairwise.nil] at ha
    obtain ⟨⟨hab, hac⟩, hbc⟩ := ha
    simp only [List.mem_cons, List.mem_singleton, List.not_mem_nil, or_false] at hA hB hC
    rcases hA with hA | hA | hA <;> rcases hB with hB | hB | hB <;>
      rcases hC with hC | hC | hC <;> subst_vars <;> simp_all

/-- C7 (as amended) with the small-slice path of Go's `sort.Slice` on seven collected
entries with ties. -/
theorem C7_digest_order_witness :
    SortSliceContract sort.SliceSmall ∧
    (sortTimesStats sort.SliceSmall demoTimesStats).Perm demoTimesStats ∧
    (sortTimesStats sort.SliceSmall demoTimesStats).Pairwise
      (fun a b => a.postCnt ≤ b.postCnt) :=
  ⟨sort.SliceSmall_contract,
    (C7_digest_order_ascending_permutation sort.SliceSmall sort.SliceSmall_contract
      demoTimesStats).1,
    (C7_digest_order_ascending_permutation sort.SliceSmall sort.SliceSmall_contract
      demoTimesStats).2.1⟩

/-- C7 as stated fails in its stability part: on the seven collected entries
`A(2) B(1) C(3) D(3) E(3) F(3) G(1)` the `sort.Slice` of Go up to 1.18 (gap-6 pass, then
insertion sort) first exchanges `G` with `A` and ends with `G(1)` before `B(1)`, although
`B` was collected before `G`.  So a `sort.Slice` that keeps its documented promise need not
keep the input order of ties. -/
theorem C7_stable_sort_counterexample :
    sortTimesStats sort.SliceSmall demoTimesStats
      = [{ chanID := "G", postCnt := 1 }, { chanID := "B", postCnt := 1 },
         { chanID := "A", postCnt := 2 }, { chanID := "C", postCnt := 3 },
         { chanID := "D", postCnt := 3 }, { chanID := "E", postCnt := 3 },
         { chanID := "F", postCnt := 3 }] ∧
    ¬ keepsTieOrder demoTimesStats (sortTimesStats sort.SliceSmall demoTimesStats) ∧
    ¬ (∀ sortSlice : SortSlice, SortSliceContract sortSlice →
        ∀ timesStats : List timesStat,
          keepsTieOrder timesStats (sortTimesStats sortSlice timesStats)) := by
  have hno : ¬ keepsTieOrder demoTimesStats
      (sortTimesStats sort.SliceSmall demoTimesStats) := by
    intro h
    have h1 := h 1
    revert h1
    decide
  exact ⟨by decide, hno, fun hall => hno (hall sort.SliceSmall sort.SliceSmall_contract _)⟩

/-! ## A complete run -/

theorem CollectSlackTimesNews_demo_run :
    CollectSlackTimesNews demoAPI sort.SliceSmall demoGetenv 1700003600 5 0
      = (.ok (),
          [.GetConversations { Cursor := "" }, .GetConversations { Cursor := "d2" },
           .GetConversationHistory (historyParams "C1" "1700000000" ""),
           .GetConversationHistory (historyParams "C2" "1700000000" ""),
           .PostMessage "C9" "過去1時間のTimes投稿数:\n• <#C1>: *3件*\n"],
          5) := by
  decide

theorem onAppHomeOpened_demo_run :
    onAppHomeOpened demoAPI 5 "U1" "UBOT" "C9" 0
      = (.ok (),
          [.GetConversations { Cursor := "" }, .GetConversations { Cursor := "d2" },
           .GetUsersInConversation { ChannelID := "C1", Cursor := "", Limit := 0 },
           .PublishView "U1"
             (buildAppHomeView
               [{ channel := { ID := "C1", Name := "times-a", Creator := "U1" },
                  isWatching := false }]) ""],
          4) := by
  decide

end Times
